import Mathlib

/-!
Verification of the structure-decoding core of `mcstructure_schematic_app`
(`src/nbt_parser.js`): the gzip decompression gate, the NBT-decode
orchestration, and the `transformStructure` pipeline
(`normalizeSize`, `toNumber`, `buildPalette`, `buildMaterialCounts`,
`buildBlocks`).

The JavaScript semantics relevant to this module is shallowly embedded:

* JS numbers are modelled as `JSNum` — NaN, ±Infinity, or an exact rational.
  IEEE-754 rounding is not modelled; all values exercised by this module
  (structure sizes, palette ordinals, small literals) are integers far below
  2^53, where double arithmetic is exact.  `-0` is identified with `0`
  (the two are indistinguishable by every comparison this module performs).
* JS values are modelled as `JSVal`: `undefined`, `null`, numbers, BigInt,
  strings, arrays, and plain objects (ordered association lists of own
  properties).  The decoded NBT tree contains exactly these shapes.
* Code that can raise a `TypeError` (calling `.map`/`.forEach`/`.toLowerCase`
  on a value that lacks them, or indexing `null`/`undefined`) is embedded in
  `Except JSError`; total JS expressions are plain functions.
* String case mapping is modelled by Lean's ASCII `String.toLower`
  (`toLowerCase` agrees on the ASCII block-identifier strings this
  application handles).
-/

namespace MCStructure

/-- A JavaScript number: NaN, +∞, −∞, or a finite value (exact rational). -/
inductive JSNum where
  | nan
  | posInf
  | negInf
  | val (q : ℚ)
deriving DecidableEq, Repr

/-- A JavaScript value of the shapes the decoded NBT tree can contain. -/
inductive JSVal where
  | undef
  | jsNull
  | num (n : JSNum)
  | bigint (i : ℤ)
  | str (s : String)
  | arr (xs : List JSVal)
  | obj (fields : List (String × JSVal))

namespace JSNum

/-- `Number.isFinite`. -/
def isFinite : JSNum → Bool
  | .val _ => true
  | _ => false

/-- JS `<` on numbers: any comparison involving NaN is false. -/
def ltB : JSNum → JSNum → Bool
  | .nan, _ => false
  | _, .nan => false
  | .negInf, .negInf => false
  | .negInf, _ => true
  | _, .negInf => false
  | .posInf, _ => false
  | .val _, .posInf => true
  | .val a, .val b => decide (a < b)

/-- JS multiplication: NaN propagates, `0 * ±∞ = NaN`, signs as usual. -/
def mul : JSNum → JSNum → JSNum
  | .nan, _ => .nan
  | _, .nan => .nan
  | .posInf, .posInf => .posInf
  | .posInf, .negInf => .negInf
  | .negInf, .posInf => .negInf
  | .negInf, .negInf => .posInf
  | .posInf, .val q => if q = 0 then .nan else if 0 < q then .posInf else .negInf
  | .val q, .posInf => if q = 0 then .nan else if 0 < q then .posInf else .negInf
  | .negInf, .val q => if q = 0 then .nan else if 0 < q then .negInf else .posInf
  | .val q, .negInf => if q = 0 then .nan else if 0 < q then .negInf else .posInf
  | .val a, .val b => .val (a * b)

/-- JS subtraction (used by the layer-sort comparator `a.y - b.y`). -/
def sub : JSNum → JSNum → JSNum
  | .nan, _ => .nan
  | _, .nan => .nan
  | .posInf, .posInf => .nan
  | .posInf, _ => .posInf
  | .negInf, .negInf => .nan
  | .negInf, _ => .negInf
  | .val _, .posInf => .negInf
  | .val _, .negInf => .posInf
  | .val a, .val b => .val (a - b)

/-- `Math.min` on two numbers: NaN absorbs, otherwise the smaller value. -/
def min2 : JSNum → JSNum → JSNum
  | .nan, _ => .nan
  | _, .nan => .nan
  | .negInf, _ => .negInf
  | _, .negInf => .negInf
  | .posInf, b => b
  | a, .posInf => a
  | .val a, .val b => .val (min a b)

/-- Truncation toward zero of a rational (JS `%` uses truncating division). -/
def ratTrunc (q : ℚ) : ℤ := if 0 ≤ q then ⌊q⌋ else ⌈q⌉

/-- JS division. -/
def div : JSNum → JSNum → JSNum
  | .nan, _ => .nan
  | _, .nan => .nan
  | .posInf, .posInf => .nan
  | .posInf, .negInf => .nan
  | .negInf, .posInf => .nan
  | .negInf, .negInf => .nan
  | .posInf, .val q => if 0 ≤ q then .posInf else .negInf
  | .negInf, .val q => if 0 ≤ q then .negInf else .posInf
  | .val _, .posInf => .val 0
  | .val _, .negInf => .val 0
  | .val a, .val b =>
    if b = 0 then (if a = 0 then .nan else if 0 < a then .posInf else .negInf)
    else .val (a / b)

/-- `Math.floor`. -/
def floor : JSNum → JSNum
  | .nan => .nan
  | .posInf => .posInf
  | .negInf => .negInf
  | .val q => .val (⌊q⌋ : ℤ)

/-- JS `%` (remainder, sign of the dividend, truncating division). -/
def mod : JSNum → JSNum → JSNum
  | .nan, _ => .nan
  | _, .nan => .nan
  | .posInf, _ => .nan
  | .negInf, _ => .nan
  | .val a, .posInf => .val a
  | .val a, .negInf => .val a
  | .val a, .val b => if b = 0 then .nan else .val (a - b * ratTrunc (a / b))

end JSNum

namespace JSVal

/-- The JS nullish test (`undefined` or `null`). -/
def nullish : JSVal → Bool
  | .undef => true
  | .jsNull => true
  | _ => false

/-- The nullish-coalescing operator `v ?? d`. -/
def coalesce (v d : JSVal) : JSVal := if v.nullish then d else v

/-- JS falsiness: `undefined`, `null`, `0`, `NaN`, `""`, `0n` are falsy;
arrays and objects are always truthy. -/
def falsy : JSVal → Bool
  | .undef => true
  | .jsNull => true
  | .num (.val q) => decide (q = 0)
  | .num .nan => true
  | .num _ => false
  | .bigint i => decide (i = 0)
  | .str s => decide (s = "")
  | .arr _ => false
  | .obj _ => false

end JSVal

/-! ### String-to-number coercion (ECMAScript `ToNumber` on strings) -/

/-- The JS whitespace characters this model trims (ASCII whitespace and
no-break space; the remaining Unicode space characters are not produced by
NBT decoding). -/
def isJsWhitespace (c : Char) : Bool :=
  c = ' ' || c = '\t' || c = '\n' || c = '\r' || c = '\x0b' ||
    c = '\x0c' || c = '\xa0'

/-- Numeric value of a decimal digit character, if it is one. -/
def decDigit? (c : Char) : Option ℕ :=
  if '0' ≤ c ∧ c ≤ '9' then some (c.toNat - '0'.toNat) else none

/-- Numeric value of a hexadecimal digit character, if it is one. -/
def hexDigit? (c : Char) : Option ℕ :=
  if '0' ≤ c ∧ c ≤ '9' then some (c.toNat - '0'.toNat)
  else if 'a' ≤ c ∧ c ≤ 'f' then some (c.toNat - 'a'.toNat + 10)
  else if 'A' ≤ c ∧ c ≤ 'F' then some (c.toNat - 'A'.toNat + 10)
  else none

/-- Accumulate a digit list (given per-digit values) into a natural. -/
def digitsToNat (base : ℕ) (ds : List ℕ) : ℕ :=
  ds.foldl (fun acc d => acc * base + d) 0

/-- Value of a non-empty all-digit character run in the given base. -/
def radixRun? (digit? : Char → Option ℕ) (base : ℕ) (cs : List Char) :
    Option ℕ :=
  match cs.mapM digit? with
  | some ds => if ds.isEmpty then none else some (digitsToNat base ds)
  | none => none

/-- Split a leading run of decimal digits from a character list. -/
def takeDecDigits (cs : List Char) : List ℕ × List Char :=
  match cs with
  | [] => ([], [])
  | c :: rest =>
    match decDigit? c with
    | some d => let (ds, r) := takeDecDigits rest; (d :: ds, r)
    | none => ([], cs)

/-- Parse the exponent suffix of a decimal literal (`e`/`E`, optional sign,
one or more digits, consuming the whole remainder). -/
def parseExponent : List Char → Option ℤ
  | [] => some 0
  | 'e' :: rest => parseSignedDigits rest
  | 'E' :: rest => parseSignedDigits rest
  | _ => none
where
  parseSignedDigits : List Char → Option ℤ
    | '+' :: rest => (radixRun? decDigit? 10 rest).map (fun n => (n : ℤ))
    | '-' :: rest => (radixRun? decDigit? 10 rest).map (fun n => -(n : ℤ))
    | rest => (radixRun? decDigit? 10 rest).map (fun n => (n : ℤ))

/-- Parse an unsigned decimal literal (`Digits ['.' Digits] [Exp]` or
`'.' Digits [Exp]`), consuming the whole character list. -/
def parseDecimal (cs : List Char) : Option ℚ :=
  let (ip, r1) := takeDecDigits cs
  let (fp, r2) :=
    match r1 with
    | '.' :: t => takeDecDigits t
    | _ => ([], r1)
  if ip.isEmpty ∧ fp.isEmpty then none
  else
    match parseExponent r2 with
    | some e =>
      some (((digitsToNat 10 ip : ℚ) + (digitsToNat 10 fp : ℚ) /
        (10 : ℚ) ^ fp.length) * (10 : ℚ) ^ e)
    | none => none

/-- The numeric value of a whitespace-trimmed string under `ToNumber`
(empty string is 0; `Infinity` with optional sign; unsigned hex/octal/binary
literals; signed decimal literals; anything else is NaN). -/
def strNumericValue (cs : List Char) : JSNum :=
  match cs with
  | [] => .val 0
  | '+' :: rest => signedTail rest false
  | '-' :: rest => signedTail rest true
  | '0' :: 'x' :: rest => radixTail (radixRun? hexDigit? 16 rest)
  | '0' :: 'X' :: rest => radixTail (radixRun? hexDigit? 16 rest)
  | '0' :: 'o' :: rest => radixTail (radixRun? (fun c =>
      match decDigit? c with
      | some d => if d < 8 then some d else none
      | none => none) 8 rest)
  | '0' :: 'O' :: rest => radixTail (radixRun? (fun c =>
      match decDigit? c with
      | some d => if d < 8 then some d else none
      | none => none) 8 rest)
  | '0' :: 'b' :: rest => radixTail (radixRun? (fun c =>
      match decDigit? c with
      | some d => if d < 2 then some d else none
      | none => none) 2 rest)
  | '0' :: 'B' :: rest => radixTail (radixRun? (fun c =>
      match decDigit? c with
      | some d => if d < 2 then some d else none
      | none => none) 2 rest)
  | _ =>
    if cs = "Infinity".toList then .posInf
    else
      match parseDecimal cs with
      | some q => .val q
      | none => .nan
where
  signedTail (rest : List Char) (neg : Bool) : JSNum :=
    if rest = "Infinity".toList then (if neg then .negInf else .posInf)
    else
      match parseDecimal rest with
      | some q => .val (if neg then -q else q)
      | none => .nan
  radixTail : Option ℕ → JSNum
    | some n => .val n
    | none => .nan

/-- `ToNumber` applied to a string: trim JS whitespace on both ends, then
interpret the remaining numeric literal. -/
def strToNumber (s : String) : JSNum :=
  strNumericValue
    ((s.toList.dropWhile isJsWhitespace).reverse.dropWhile
      isJsWhitespace).reverse

/-- `parseInt(k, 10)`: skip leading whitespace, optional sign, then the
leading run of decimal digits; NaN when that run is empty.  Trailing
characters are ignored.  (Values are exact; the double rounding that real
`parseInt` applies beyond 2^53 is outside the range this module handles.) -/
def parseIntJS (s : String) : JSNum :=
  match s.toList.dropWhile isJsWhitespace with
  | '+' :: rest => core rest false
  | '-' :: rest => core rest true
  | rest => core rest false
where
  core (cs : List Char) (neg : Bool) : JSNum :=
    let (ds, _) := takeDecDigits cs
    if ds.isEmpty then .nan
    else .val (if neg then -(digitsToNat 10 ds : ℚ) else (digitsToNat 10 ds : ℚ))

/-! ### JS value coercion and property access -/

/-- ECMAScript `ToNumber` for the value shapes of this model.  Arrays go
through `ToPrimitive`/`Array.prototype.toString` (a comma join): the empty
array is 0, a two-or-more element array always stringifies with a comma and
is NaN, and a one-element array coerces as its element (nullish elements
join to the empty string, hence 0).  Plain objects stringify to
`"[object Object]"`, hence NaN.  BigInt conversion is exact. -/
def jsToNumber : JSVal → JSNum
  | .undef => .nan
  | .jsNull => .val 0
  | .num n => n
  | .bigint i => .val i
  | .str s => strToNumber s
  | .obj _ => .nan
  | .arr [] => .val 0
  | .arr [v] => if v.nullish then .val 0 else jsToNumber v
  | .arr (_ :: _ :: _) => .nan

/-- A raised JavaScript exception. -/
inductive JSError where
  | typeError (msg : String)
deriving DecidableEq, Repr

/-- Property read on a value known to be non-nullish (reads on `undefined`
or `null` throw and are modelled separately in `jsGetProp`).  Objects use
first-match lookup over their ordered own properties; arrays and strings
expose `length` and their canonical element indices; other primitives have
no own properties relevant to this module. -/
def getPropOrUndef (v : JSVal) (k : String) : JSVal :=
  match v with
  | .obj fields => (((fields.find? (fun p => p.1 = k)).map Prod.snd)).getD .undef
  | .arr xs =>
    if k = "length" then .num (.val xs.length)
    else
      match k.toNat? with
      | some i => if toString i = k then (xs.getD i .undef) else .undef
      | none => .undef
  | .str s =>
    if k = "length" then .num (.val s.length)
    else
      match k.toNat? with
      | some i =>
        if toString i = k then
          match s.toList.get? i with
          | some c => .str (String.singleton c)
          | none => .undef
        else .undef
      | none => .undef
  | _ => (.undef)

/-- JS property read `v.k`: throws a TypeError on `undefined`/`null`. -/
def jsGetProp (v : JSVal) (k : String) : Except JSError JSVal :=
  if v.nullish then
    .error (.typeError ("Cannot read properties of " ++
      (match v with | .jsNull => "null" | _ => "undefined") ++
      " (reading " ++ k ++ ")"))
  else .ok (getPropOrUndef v k)

/-- Optional chaining `v?.k`: `undefined` on a nullish receiver. -/
def optChainProp (v : JSVal) (k : String) : JSVal :=
  if v.nullish then .undef else getPropOrUndef v k

/-- JS numeric index read `v[i]`: throws on `undefined`/`null`; arrays
return the element or `undefined`, strings their i-th character, objects
the property named by the index's decimal string. -/
def jsIndex (v : JSVal) (i : ℕ) : Except JSError JSVal :=
  if v.nullish then
    .error (.typeError ("Cannot read properties of " ++
      (match v with | .jsNull => "null" | _ => "undefined") ++
      " (reading " ++ toString i ++ ")"))
  else .ok (getPropOrUndef v (toString i))

/-! ### The transform pipeline (`src/nbt_parser.js`) -/

/-- The structure model's size record (`normalizeSize` output). -/
structure Size3 where
  x : JSNum
  y : JSNum
  z : JSNum
deriving DecidableEq, Repr

/-- A built palette entry (`buildPalette` output).  `name`, `states` and
`version` keep whatever value the source entry carried (after the
defaulting `??` in the source); they need not be a string / object /
number for malformed input. -/
structure PaletteEntry where
  index : ℕ
  name : JSVal
  states : JSVal
  version : JSVal

/-- One emitted voxel (`buildBlocks` output entry). -/
structure Voxel where
  x : JSNum
  y : JSNum
  z : JSNum
  paletteIndex : JSNum
deriving DecidableEq, Repr

/-- The transform result (`transformStructure` output).  `materials` is the
ordered key/count association backing the histogram object. -/
structure StructureModel where
  size : Size3
  palette : List PaletteEntry
  materials : List (String × ℕ)
  blocks : List Voxel
  raw : List (String × JSVal)

/-- `normalizeSize(sizeList = [])`, including the default-parameter rule
(the default applies only when the argument is `undefined`).  Indexing a
`null` argument throws, exactly as in JS. -/
def normalizeSize (sizeListArg : JSVal) : Except JSError Size3 := do
  let sizeList := match sizeListArg with
    | .undef => .arr []
    | v => v
  let v0 ← jsIndex sizeList 0
  let v1 ← jsIndex sizeList 1
  let v2 ← jsIndex sizeList 2
  pure {
    x := jsToNumber (v0.coalesce (.num (.val 0)))
    y := jsToNumber (v1.coalesce (.num (.val 0)))
    z := jsToNumber (v2.coalesce (.num (.val 0)))
  }

/-- The module's `toNumber`: numbers pass through, BigInt converts, and
everything else goes through `Number(value ?? 0)`. -/
def toNumber (value : JSVal) : JSNum :=
  match value with
  | .num n => n
  | .bigint i => .val i
  | v => jsToNumber (v.coalesce (.num (.val 0)))

/-- `buildPalette`: reads `structureSection.palette?.default?.block_palette
?? []` and maps each entry to a `PaletteEntry`.  Calling `.map` on a
non-array (non-nullish) `block_palette` value throws, as in JS. -/
def buildPalette (structureSection : JSVal) :
    Except JSError (List PaletteEntry) := do
  let p1 ← jsGetProp structureSection "palette"
  let rawPalette :=
    (optChainProp (optChainProp p1 "default") "block_palette").coalesce
      (.arr [])
  match rawPalette with
  | .arr xs =>
    pure (xs.enum.map (fun p =>
      { index := p.1
        name := (optChainProp p.2 "name").coalesce (.str "minecraft:unknown")
        states := (optChainProp p.2 "states").coalesce (.obj [])
        version := (optChainProp p.2 "version").coalesce (.num (.val 0)) }))
  | _ => .error (.typeError "rawPalette.map is not a function")

/-- The `palette.map((entry) => (entry?.name ?? 'minecraft:unknown')
.toLowerCase())` pass of `buildMaterialCounts`: the callback throws a
TypeError when a (defaulted) name is not a string, aborting the map at
that entry, exactly as JS `Array.prototype.map` does. -/
def lowerNames : List PaletteEntry → Except JSError (List String)
  | [] => pure []
  | e :: rest => do
    match e.name.coalesce (.str "minecraft:unknown") with
    | .str s =>
      let tail ← lowerNames rest
      pure (s.toLower :: tail)
    | _ => .error (.typeError "name.toLowerCase is not a function")

/-- Array read `names[q]` for a (finite) numeric index: defined only for a
canonical non-negative integer index, `undefined` (here `none`)
otherwise — a fractional index is a non-element property name. -/
def namesAt (names : List String) (q : ℚ) : Option String :=
  if q.den = 1 ∧ 0 ≤ q.num then names.get? q.num.toNat else none

/-- One iteration of the inner `layer.forEach((rawIndex) => ...)` of
`buildMaterialCounts`: coerce, bounds-check, resolve the palette name,
skip empty/air names, and bump the count. -/
def materialStep (names : List String) (acc : List (String × ℕ))
    (rawIndex : JSVal) : List (String × ℕ) :=
  let index := toNumber rawIndex
  match index with
  | .val q =>
    if q < 0 ∨ (names.length : ℚ) ≤ q then acc
    else
      match namesAt names q with
      | none => acc
      | some blockName =>
        if blockName = "" ∨ blockName = "minecraft:air" then acc
        else bump acc blockName
  | _ => acc
where
  /-- `counts[blockName] = (counts[blockName] || 0) + 1` on the ordered
  key/count association. -/
  bump : List (String × ℕ) → String → List (String × ℕ)
    | [], k => [(k, 1)]
    | (k', c) :: rest, k =>
      if k' = k then (k', c + 1) :: rest else (k', c) :: bump rest k

/-- `buildMaterialCounts(structureSection, palette)`.  A falsy section
short-circuits to an empty histogram; a non-array (non-nullish)
`block_indices` value — including the Bedrock mapping form — throws,
because plain objects have no `forEach`. -/
def buildMaterialCounts (structureSection : JSVal)
    (palette : List PaletteEntry) : Except JSError (List (String × ℕ)) := do
  if structureSection.falsy then
    pure []
  else do
    let paletteNames ← lowerNames palette
    -- the falsy guard above ensures the receiver is non-nullish
    let blockIndexLayers :=
      (getPropOrUndef structureSection "block_indices").coalesce (.arr [])
    match blockIndexLayers with
    | .arr layers =>
      pure (layers.foldl (fun acc layer =>
        match layer with
        | .arr vs => vs.foldl (materialStep paletteNames) acc
        | _ => acc) [])
    | _ => .error (.typeError "blockIndexLayers.forEach is not a function")

/-- A normalized layer record: the `y` key and the layer's data value. -/
abbrev LayerRec := JSNum × JSVal

/-- The sort comparator `(a, b) => a.y - b.y`, turned into the "not
greater" relation ECMAScript sorting uses; a NaN comparator result is
treated as 0 (ECMA-262 `SortCompare`). -/
def layerLe (a b : LayerRec) : Bool :=
  match JSNum.sub a.1 b.1 with
  | .val q => decide (q ≤ 0)
  | .nan => true
  | .posInf => false
  | .negInf => true

/-- Stable insertion of a record into a sorted run (earlier-input elements
are inserted ahead of later equal elements, so the overall sort is
stable). -/
def sortInsert (a : LayerRec) : List LayerRec → List LayerRec
  | [] => [a]
  | b :: rest => if layerLe a b then a :: b :: rest else b :: sortInsert a rest

/-- The stable sort the layer normalization applies
(`.sort((a, b) => a.y - b.y)`; ES2019+ guarantees a stable sort, and for a
consistent comparator every stable sort produces the same list). -/
def jsSortLayers : List LayerRec → List LayerRec
  | [] => []
  | a :: rest => sortInsert a (jsSortLayers rest)

/-- The layer-normalization step of `buildBlocks`: a sequence maps each
layer to its position as `y`; a (non-null, non-array) object parses each
key with `parseInt(k, 10)` and sorts ascending by that key; anything else
yields no layers. -/
def normalizeLayers (blockIndices : JSVal) : List LayerRec :=
  match blockIndices with
  | .arr ls => ls.enum.map (fun p => ((.val p.1 : JSNum), p.2))
  | .obj kvs => jsSortLayers (kvs.map (fun p => (parseIntJS p.1, p.2)))
  | _ => []

/-- The per-cell body of the voxel loop: coerce `layer[idx]`, drop
non-finite or out-of-range values, otherwise emit
`{ x: idx % size.x, y, z: Math.floor(idx / size.x), paletteIndex }`. -/
def voxelEmit (sx : JSNum) (y : JSNum) (paletteLength : ℕ) (idx : ℕ)
    (rawValue : JSVal) : Option Voxel :=
  let paletteIndex := toNumber rawValue
  if ¬ paletteIndex.isFinite ∨ JSNum.ltB paletteIndex (.val 0) ∨
      ¬ JSNum.ltB paletteIndex (.val paletteLength) then
    none
  else
    some {
      x := JSNum.mod (.val idx) sx
      y := y
      z := JSNum.floor (JSNum.div (.val idx) sx)
      paletteIndex := paletteIndex
    }

/-- The per-layer voxel loop of `buildBlocks`: `limit =
Math.min(layer.length, size.x * size.z)`; the loop counter stops at the
first index not below `limit` (the bound is a fixed number, so filtering
the index range by the loop condition is the loop's exact behavior). -/
def layerVoxels (size : Size3) (paletteLength : ℕ) (y : JSNum)
    (data : List JSVal) : List Voxel :=
  let areaXZ := JSNum.mul size.x size.z
  let limit := JSNum.min2 (.val data.length) areaXZ
  (List.range data.length).filterMap (fun (idx : ℕ) =>
    if JSNum.ltB (.val (idx : ℚ)) limit then
      voxelEmit size.x y paletteLength idx (data.getD idx .undef)
    else none)

/-- `buildBlocks(structureSection, size, paletteLength)`: normalize the
layers, skip any layer whose data is not an array, and concatenate each
remaining layer's voxels in order.  (The caller always passes a
non-nullish section, so the `block_indices` read cannot throw.) -/
def buildBlocks (structureSection : JSVal) (size : Size3)
    (paletteLength : ℕ) : List Voxel :=
  let blockIndices :=
    (getPropOrUndef structureSection "block_indices").coalesce (.arr [])
  (normalizeLayers blockIndices).flatMap (fun rec =>
    match rec.2 with
    | .arr data => layerVoxels size paletteLength rec.1 data
    | _ => [])

/-- Field read on the root compound (`rootCompound.size` etc.); the decoded
tree is an object, so the read is a plain own-property lookup. -/
def rootGet (root : List (String × JSVal)) (k : String) : JSVal :=
  ((root.find? (fun p => p.1 = k)).map Prod.snd).getD (.undef)

/-- The `structureSection` the transform passes to every sub-step:
`rootCompound.structure ?? {}`. -/
def structureSectionOf (root : List (String × JSVal)) : JSVal :=
  (rootGet root "structure").coalesce (.obj [])

/-- `transformStructure(rootCompound)`: size, palette, materials and
blocks, in the source's evaluation order (the first thrown TypeError
propagates). -/
def transformStructure (root : List (String × JSVal)) :
    Except JSError StructureModel := do
  let size ← normalizeSize (rootGet root "size")
  let structureSection := structureSectionOf root
  let palette ← buildPalette structureSection
  let materials ← buildMaterialCounts structureSection palette
  let blocks := buildBlocks structureSection size palette.length
  pure { size, palette, materials, blocks, raw := root }

/-! ### Decompression gate and decode orchestration
(`parseMCStructureBinary`) -/

/-- The two-byte gzip magic (`GZIP_MAGIC_BYTES`). -/
def GZIP_MAGIC_BYTES : List ℕ := [0x1f, 0x8b]

/-- `isGzipCompressed(buffer)`: false for buffers shorter than two bytes,
otherwise compares the first two bytes with the gzip magic.  (The `!buffer`
guard of the source handles a null argument; a buffer is always present in
this model.) -/
def isGzipCompressed (buffer : List ℕ) : Bool :=
  if buffer.length < 2 then false
  else decide (buffer.getD 0 0 = 0x1f) && decide (buffer.getD 1 0 = 0x8b)

/-- The two input forms the orchestration hands to `NBT.parse`: the
`Uint8Array` byte view, then — on failure — its underlying
`ArrayBuffer`.  Both carry the same bytes. -/
inductive InputForm where
  | byteView
  | rawBuffer
deriving DecidableEq, Repr

/-- A pipeline failure of `parseMCStructureBinary`. -/
inductive PipelineError where
  /-- pako missing while a gzip signature was detected. -/
  | missingDependency (msg : String)
  /-- `pako.inflate` failed on a gzip-signature buffer. -/
  | decompressionError (msg : String)
  /-- `NBT.parse` failed on both input forms. -/
  | decodeError (msg : String)
  /-- an uncaught TypeError escaping `transformStructure`. -/
  | jsError (e : JSError)
deriving DecidableEq, Repr

/-- The decompression stage (source lines 25–46): detect the gzip magic;
when detected, require pako and inflate the full buffer, wrapping an
inflate failure; otherwise pass the buffer through unchanged. -/
def decompressStage (pako : Option (List ℕ → Except String (List ℕ)))
    (buffer : List ℕ) : Except PipelineError (List ℕ) :=
  if isGzipCompressed buffer then
    match pako with
    | none =>
      .error (.missingDependency
        ("Pako library (Gzip decompressor) is required but not loaded. " ++
         "Ensure pako is included (e.g. pako.min.js) and available on the " ++
         "page as global 'pako'."))
    | some inflate =>
      match inflate buffer with
      | .ok d => .ok d
      | .error m =>
        .error (.decompressionError
          ("Gzip Decompression Error: Cannot decompress file. It may be " ++
           "corrupted or not a valid Gzip structure. (" ++ m ++ ")"))
  else .ok buffer

/-- The decode stage (source lines 48–71): try the byte view, retry once
with the underlying buffer, and on a second failure raise a decode error
whose message interpolates `e.message || e2.message` — the primary
message, or the fallback's when the primary's is empty. -/
def decodeStage
    (nbtParse : InputForm → List ℕ → Except String (List (String × JSVal)))
    (data : List ℕ) : Except PipelineError (List (String × JSVal)) :=
  match nbtParse .byteView data with
  | .ok t => .ok t
  | .error e1 =>
    match nbtParse .rawBuffer data with
    | .ok t => .ok t
    | .error e2 =>
      .error (.decodeError
        ("NBT Parsing Error: Failed to read Minecraft NBT structure data. " ++
         "The file format seems invalid after integrity checks. (" ++
         (if e1 = "" then e2 else e1) ++ ")"))

/-- Decode then transform: everything the orchestration does after the
decompression gate. -/
def decodeAndTransform
    (nbtParse : InputForm → List ℕ → Except String (List (String × JSVal)))
    (data : List ℕ) : Except PipelineError StructureModel := do
  let tree ← decodeStage nbtParse data
  match transformStructure tree with
  | .ok m => .ok m
  | .error e => .error (.jsError e)

/-- `parseMCStructureBinary(buffer)` with its two collaborators passed
explicitly: gate, decode (with one retry), transform. -/
def parseMCStructureBinary
    (pako : Option (List ℕ → Except String (List ℕ)))
    (nbtParse : InputForm → List ℕ → Except String (List (String × JSVal)))
    (buffer : List ℕ) : Except PipelineError StructureModel := do
  let decompressedData ← decompressStage pako buffer
  decodeAndTransform nbtParse decompressedData

/-! ### Shared lemmas -/

/-- Restricting a `filterMap` over `range n` by a bound `m ≤ n` on the
index is the same as filtering over `range m`. -/
theorem filterMapRange_restrict {α : Type} (n m : ℕ) (hm : m ≤ n)
    (f : ℕ → Option α) :
    (List.range n).filterMap (fun i => if i < m then f i else none)
      = (List.range m).filterMap f := by
  obtain ⟨k, rfl⟩ := Nat.exists_eq_add_of_le hm
  rw [List.range_add, List.filterMap_append, List.filterMap_map]
  have h2 : (List.range k).filterMap
      ((fun i => if i < m then f i else none) ∘ (m + ·)) = [] := by
    rw [List.filterMap_eq_nil_iff]
    intro a _
    simp [Function.comp, Nat.not_lt.mpr (Nat.le_add_right m a)]
  rw [h2, List.append_nil]
  apply List.filterMap_congr
  intro i hi
  simp [List.mem_range.mp hi]

/-- JS `%` with a positive natural divisor and natural dividend is the
natural remainder. -/
theorem floorRat_natDiv (idx sx : ℕ) :
    ⌊(idx : ℚ) / (sx : ℚ)⌋ = ((idx / sx : ℕ) : ℤ) := by
  have h := Rat.floor_intCast_div_natCast (idx : ℤ) sx
  have h2 : ((idx : ℤ) : ℚ) = (idx : ℚ) := by push_cast; rfl
  rw [h2] at h
  rw [h]
  exact (Int.natCast_div idx sx).symm

theorem jsMod_natCast (idx sx : ℕ) (hsx : 0 < sx) :
    JSNum.mod (.val (idx : ℚ)) (.val (sx : ℚ)) = .val ((idx % sx : ℕ) : ℚ) := by
  have hne : ((sx : ℚ)) ≠ 0 := Nat.cast_ne_zero.mpr hsx.ne'
  have htr : JSNum.ratTrunc ((idx : ℚ) / (sx : ℚ)) = ((idx / sx : ℕ) : ℤ) := by
    unfold JSNum.ratTrunc
    rw [if_pos (by positivity), floorRat_natDiv idx sx]
  simp only [JSNum.mod, if_neg hne, htr]
  congr 1
  have hsplit : ((idx % sx : ℕ) : ℚ) + ((sx : ℕ) : ℚ) * ((idx / sx : ℕ) : ℚ)
      = (idx : ℚ) := by
    exact_mod_cast congrArg (fun n : ℕ => (n : ℚ)) (Nat.mod_add_div idx sx)
  have hcast : (((idx / sx : ℕ) : ℤ) : ℚ) = ((idx / sx : ℕ) : ℚ) := by
    push_cast; rfl
  rw [hcast]
  linarith

/-- `Math.floor` of a JS division of naturals (positive divisor) is the
natural quotient. -/
theorem jsFloorDiv_natCast (idx sx : ℕ) (hsx : 0 < sx) :
    JSNum.floor (JSNum.div (.val (idx : ℚ)) (.val (sx : ℚ)))
      = .val ((idx / sx : ℕ) : ℚ) := by
  have hne : ((sx : ℚ)) ≠ 0 := Nat.cast_ne_zero.mpr hsx.ne'
  simp only [JSNum.div, if_neg hne, JSNum.floor, floorRat_natDiv idx sx]
  congr 1

/-- The per-cell voxel emission, for a positive natural `size.x`: finite
in-range values produce the claimed coordinates, everything else nothing. -/
theorem voxelEmit_natCast (sx : ℕ) (hsx : 0 < sx) (y : JSNum)
    (plen idx : ℕ) (v : JSVal) :
    voxelEmit (.val (sx : ℚ)) y plen idx v
      = match toNumber v with
        | .val q =>
          if 0 ≤ q ∧ q < (plen : ℚ) then
            some ⟨.val ((idx % sx : ℕ) : ℚ), y, .val ((idx / sx : ℕ) : ℚ),
              .val q⟩
          else none
        | _ => none := by
  simp only [voxelEmit]
  cases h : toNumber v with
  | nan => simp [JSNum.isFinite]
  | posInf => simp [JSNum.isFinite]
  | negInf => simp [JSNum.isFinite]
  | val q =>
    have hiota : (match JSNum.val q with
        | JSNum.val q =>
          if 0 ≤ q ∧ q < (plen : ℚ) then
            some (⟨.val ((idx % sx : ℕ) : ℚ), y, .val ((idx / sx : ℕ) : ℚ),
              .val q⟩ : Voxel)
          else none
        | _ => (none : Option Voxel))
        = if 0 ≤ q ∧ q < (plen : ℚ) then
            some (⟨.val ((idx % sx : ℕ) : ℚ), y, .val ((idx / sx : ℕ) : ℚ),
              .val q⟩ : Voxel)
          else none := rfl
    rw [hiota]
    by_cases hq : 0 ≤ q ∧ q < (plen : ℚ)
    · rw [if_neg, if_pos hq]
      · rw [jsMod_natCast idx sx hsx, jsFloorDiv_natCast idx sx hsx]
      · simp [JSNum.isFinite, JSNum.ltB, hq.2, not_lt.mpr hq.1]
    · rw [if_pos, if_neg hq]
      rw [not_and_or, not_le, not_lt] at hq
      rcases hq with hlt | hge
      · right; left; simp [JSNum.ltB, hlt]
      · right; right; simp [JSNum.ltB, not_lt.mpr hge]

/-- `ltB` on two finite values is the rational order. -/
theorem ltB_val (a b : ℚ) : JSNum.ltB (.val a) (.val b) = true ↔ a < b := by
  simp [JSNum.ltB]

/-- The per-layer voxel loop, for natural-number-valued `size.x` and
`size.z`: the usable length is `min data.length (size.x * size.z)`, and
index `idx` emits `(idx % size.x, y, idx / size.x)` exactly when its value
coerces to a finite number in `[0, paletteLength)`. -/
theorem layerVoxels_natCast (sx sz : ℕ) (sizeY : JSNum) (plen : ℕ)
    (y : JSNum) (data : List JSVal) :
    layerVoxels ⟨.val (sx : ℚ), sizeY, .val (sz : ℚ)⟩ plen y data
      = (List.range (min data.length (sx * sz))).filterMap (fun idx =>
          match toNumber (data.getD idx .undef) with
          | .val q =>
            if 0 ≤ q ∧ q < (plen : ℚ) then
              some ⟨.val ((idx % sx : ℕ) : ℚ), y, .val ((idx / sx : ℕ) : ℚ),
                .val q⟩
            else none
          | _ => none) := by
  have harea : JSNum.mul (.val (sx : ℚ)) (.val (sz : ℚ))
      = .val ((sx * sz : ℕ) : ℚ) := by
    simp only [JSNum.mul]
    congr 1
    push_cast
    ring
  have hmin : JSNum.min2 (.val (data.length : ℚ)) (.val ((sx * sz : ℕ) : ℚ))
      = .val ((min data.length (sx * sz) : ℕ) : ℚ) := by
    simp only [JSNum.min2]
    congr 1
    push_cast
    rfl
  simp only [layerVoxels, harea, hmin]
  have hstep : (List.range data.length).filterMap (fun (idx : ℕ) =>
      if JSNum.ltB (.val (idx : ℚ))
          (.val ((min data.length (sx * sz) : ℕ) : ℚ)) = true then
        voxelEmit (.val (sx : ℚ)) y plen idx (data.getD idx .undef)
      else none)
      = (List.range (min data.length (sx * sz))).filterMap (fun idx =>
        voxelEmit (.val (sx : ℚ)) y plen idx (data.getD idx .undef)) := by
    rw [← filterMapRange_restrict data.length (min data.length (sx * sz))
      (min_le_left _ _)]
    apply List.filterMap_congr
    intro i _
    apply if_congr _ rfl rfl
    rw [ltB_val]
    exact_mod_cast Iff.rfl
  rw [hstep]
  apply List.filterMap_congr
  intro i hi
  have hi' : i < min data.length (sx * sz) := List.mem_range.mp hi
  have hsx : 0 < sx := by
    rcases Nat.eq_zero_or_pos sx with h0 | h
    · simp [h0] at hi'
    · exact h
  exact voxelEmit_natCast sx hsx y plen i (data.getD i .undef)

/-- C2: For every normalized layer with key `layerKey` and flat data array
`data`, the voxel pass uses usable length `min(data.length, size.x *
size.z)` and for each linear index `idx` in that range emits a voxel with
`z = floor(idx / size.x)`, `x = idx mod size.x`, `y = layerKey`, dropping
values out of `[0, paletteLength)`; in particular, for size `{x:2,y:1,z:2}`,
a palette of length 3, and one layer (key 0) with data `[0,1,2,9]`, exactly
the voxels `(x=0,z=0,y=0,pi=0)`, `(x=1,z=0,y=0,pi=1)`, `(x=0,z=1,y=0,pi=2)`
are emitted and index 3 (value 9) is dropped. -/
theorem voxel_pass_per_layer_and_example :
    (∀ (sx sz : ℕ) (sizeY : JSNum) (plen : ℕ) (y : JSNum)
      (data : List JSVal),
      layerVoxels ⟨.val (sx : ℚ), sizeY, .val (sz : ℚ)⟩ plen y data
        = (List.range (min data.length (sx * sz))).filterMap (fun idx =>
            match toNumber (data.getD idx .undef) with
            | .val q =>
              if 0 ≤ q ∧ q < (plen : ℚ) then
                some ⟨.val ((idx % sx : ℕ) : ℚ), y,
                  .val ((idx / sx : ℕ) : ℚ), .val q⟩
              else none
            | _ => none))
    ∧ buildBlocks
        (.obj [("block_indices", .arr [.arr
          [.num (.val 0), .num (.val 1), .num (.val 2), .num (.val 9)]])])
        ⟨.val 2, .val 1, .val 2⟩ 3
      = [⟨.val 0, .val 0, .val 0, .val 0⟩, ⟨.val 1, .val 0, .val 0, .val 1⟩,
         ⟨.val 0, .val 0, .val 1, .val 2⟩] := by
  constructor
  · exact layerVoxels_natCast
  · with_unfolding_all decide

/-- Substring test used to state what an error message does (not) contain. -/
def containsSubstr (hay needle : String) : Bool :=
  hay.toList.tails.any (fun t => needle.toList.isPrefixOf t)

/-- C1 (the bug the claim exposes): for the mapping-form `block_indices`
input `{ structure: { block_indices: { "0": [0] } } }` — a
well-formed-but-unexpected shape the claim says must yield a
StructureModel — `transformStructure` instead throws: the mapping form
reaches `blockIndexLayers.forEach` in `buildMaterialCounts`, and a plain
object has no `forEach`.  (`buildBlocks`'s own comment says both the array
and the object form are supported, but `buildMaterialCounts` runs first.) -/
theorem transform_mapping_form_throws :
    transformStructure
      [("structure", .obj [("block_indices",
        .obj [("0", .arr [.num (.val 0)])])])]
      = .error (.typeError "blockIndexLayers.forEach is not a function") := by
  with_unfolding_all rfl

/-- C3: the gate treats exactly the 2-byte-or-longer buffers starting with
`0x1f 0x8b` as compressed; for those it invokes `inflate` on the full
buffer (continuing with its output, or wrapping its failure); for every
other buffer — including the empty and 1-byte buffers — the result does
not depend on `inflate` at all and the unchanged buffer goes to the
tag-tree decoder. -/
theorem gate_invokes_inflate_iff_magic :
    (∀ buffer : List ℕ,
      isGzipCompressed buffer
        = (decide (2 ≤ buffer.length) && decide (buffer.getD 0 0 = 0x1f) &&
            decide (buffer.getD 1 0 = 0x8b)))
    ∧ (∀ (inflate : List ℕ → Except String (List ℕ))
        (nbtParse : InputForm → List ℕ → Except String (List (String × JSVal)))
        (buffer : List ℕ),
        parseMCStructureBinary (some inflate) nbtParse buffer
          = if isGzipCompressed buffer then
              match inflate buffer with
              | .ok d => decodeAndTransform nbtParse d
              | .error m =>
                .error (.decompressionError
                  ("Gzip Decompression Error: Cannot decompress file. " ++
                   "It may be corrupted or not a valid Gzip structure. (" ++
                   m ++ ")"))
            else decodeAndTransform nbtParse buffer) := by
  constructor
  · intro buffer
    by_cases h : buffer.length < 2
    · simp [isGzipCompressed, h, Nat.lt_iff_add_one_le]
    · simp only [isGzipCompressed, if_neg h]
      have h2 : 2 ≤ buffer.length := Nat.le_of_not_lt h
      simp [h2]
  · intro inflate nbtParse buffer
    by_cases hg : isGzipCompressed buffer = true
    · simp only [parseMCStructureBinary, decompressStage, hg, if_true]
      cases hinf : inflate buffer with
      | ok d => simp [bind, Except.bind]
      | error m => simp [bind, Except.bind]
    · simp only [parseMCStructureBinary, decompressStage,
        Bool.not_eq_true] at hg ⊢
      simp [hg, bind, Except.bind]

/-- C4 counterexample: with a primary decode failure "primary boom" and a
fallback failure "fallback boom", the raised DecodeError's message carries
only the primary message — contrary to the claim, it does not wrap both
underlying messages. -/
theorem decode_error_message_not_both :
    parseMCStructureBinary (some (fun b => .ok b))
      (fun form _ => .error (match form with
        | .byteView => "primary boom"
        | .rawBuffer => "fallback boom"))
      [0]
      = .error (.decodeError
          ("NBT Parsing Error: Failed to read Minecraft NBT structure " ++
           "data. The file format seems invalid after integrity checks. " ++
           "(primary boom)"))
    ∧ containsSubstr
        ("NBT Parsing Error: Failed to read Minecraft NBT structure " ++
         "data. The file format seems invalid after integrity checks. " ++
         "(primary boom)") "fallback boom" = false := by
  constructor
  · with_unfolding_all rfl
  · with_unfolding_all rfl

/-- C4 (amended): when the tag-tree decoder fails on the byte view, the
orchestration retries exactly once with the underlying buffer — a fallback
success is used as-is, and a second failure raises a DecodeError whose
message wraps the primary failure's message, falling back to the retry
failure's message only when the primary's is empty. -/
theorem decode_retry_once_and_message
    (nbtParse : InputForm → List ℕ → Except String (List (String × JSVal)))
    (data : List ℕ) (e1 : String)
    (h1 : nbtParse .byteView data = .error e1) :
    (∀ t, nbtParse .rawBuffer data = .ok t →
      decodeStage nbtParse data = .ok t)
    ∧ (∀ e2, nbtParse .rawBuffer data = .error e2 →
        decodeStage nbtParse data = .error (.decodeError
          ("NBT Parsing Error: Failed to read Minecraft NBT structure " ++
           "data. The file format seems invalid after integrity checks. (" ++
           (if e1 = "" then e2 else e1) ++ ")"))) := by
  constructor
  · intro t ht
    simp [decodeStage, h1, ht]
  · intro e2 ht
    simp [decodeStage, h1, ht]

/-- Witness for the amended C4 theorem at a concrete failing decoder. -/
theorem decode_retry_once_and_message_witness :
    (∀ t, (fun (form : InputForm) (_ : List ℕ) =>
        (.error (match form with
          | .byteView => "eA"
          | .rawBuffer => "eB") : Except String (List (String × JSVal))))
        .rawBuffer [] = .ok t →
      decodeStage (fun form _ => .error (match form with
        | .byteView => "eA"
        | .rawBuffer => "eB")) [] = .ok t)
    ∧ (∀ e2, (fun (form : InputForm) (_ : List ℕ) =>
        (.error (match form with
          | .byteView => "eA"
          | .rawBuffer => "eB") : Except String (List (String × JSVal))))
        .rawBuffer [] = .error e2 →
        decodeStage (fun form _ => .error (match form with
          | .byteView => "eA"
          | .rawBuffer => "eB")) [] = .error (.decodeError
          ("NBT Parsing Error: Failed to read Minecraft NBT structure " ++
           "data. The file format seems invalid after integrity checks. (" ++
           (if "eA" = "" then e2 else "eA") ++ ")"))) :=
  decode_retry_once_and_message
    (fun form _ => .error (match form with
      | .byteView => "eA"
      | .rawBuffer => "eB")) [] "eA" rfl

/-- C9: a 64-bit-integer-typed occupancy value equal to 5 coerces to
exactly the number 5, so the voxel pass's per-cell emission and the
histogram pass's per-value step make identical decisions for
`BigInt 5` and the plain number 5. -/
theorem bigint_occupancy_coerces_like_number :
    toNumber (.bigint 5) = .val 5
    ∧ toNumber (.bigint 5) = toNumber (.num (.val 5))
    ∧ (∀ (sx y : JSNum) (plen idx : ℕ),
        voxelEmit sx y plen idx (.bigint 5)
          = voxelEmit sx y plen idx (.num (.val 5)))
    ∧ (∀ (names : List String) (acc : List (String × ℕ)),
        materialStep names acc (.bigint 5)
          = materialStep names acc (.num (.val 5))) := by
  have h : toNumber (.bigint 5) = .val 5 := by
    show JSNum.val ((5 : ℤ) : ℚ) = JSNum.val 5
    norm_num
  refine ⟨h, h, ?_, ?_⟩
  · intro sx y plen idx
    simp only [voxelEmit, h]
    rfl
  · intro names acc
    simp only [materialStep, h]
    rfl

/-- C10: the Transform is deterministic — two invocations on the same
DecodedTree that succeed produce deep-equal sizes, palettes, material
histograms and block lists (the retained `raw` reference aside). -/
theorem transform_idempotent (root : List (String × JSVal))
    (m₁ m₂ : StructureModel)
    (h₁ : transformStructure root = .ok m₁)
    (h₂ : transformStructure root = .ok m₂) :
    m₁.size = m₂.size ∧ m₁.palette = m₂.palette ∧
      m₁.materials = m₂.materials ∧ m₁.blocks = m₂.blocks := by
  rw [h₁] at h₂
  injection h₂ with h
  subst h
  exact ⟨rfl, rfl, rfl, rfl⟩

/-- Witness for C10 at the empty DecodedTree. -/
theorem transform_idempotent_witness :
    ({ size := ⟨.val 0, .val 0, .val 0⟩, palette := [], materials := [],
       blocks := [], raw := [] } : StructureModel).size
        = ({ size := ⟨.val 0, .val 0, .val 0⟩, palette := [], materials := [],
             blocks := [], raw := [] } : StructureModel).size
    ∧ ({ size := ⟨.val 0, .val 0, .val 0⟩, palette := [], materials := [],
         blocks := [], raw := [] } : StructureModel).palette
        = ({ size := ⟨.val 0, .val 0, .val 0⟩, palette := [], materials := [],
             blocks := [], raw := [] } : StructureModel).palette
    ∧ ({ size := ⟨.val 0, .val 0, .val 0⟩, palette := [], materials := [],
         blocks := [], raw := [] } : StructureModel).materials
        = ({ size := ⟨.val 0, .val 0, .val 0⟩, palette := [], materials := [],
             blocks := [], raw := [] } : StructureModel).materials
    ∧ ({ size := ⟨.val 0, .val 0, .val 0⟩, palette := [], materials := [],
         blocks := [], raw := [] } : StructureModel).blocks
        = ({ size := ⟨.val 0, .val 0, .val 0⟩, palette := [], materials := [],
             blocks := [], raw := [] } : StructureModel).blocks :=
  transform_idempotent [] _ _ (by with_unfolding_all rfl)
    (by with_unfolding_all rfl)

/-- Inversion of a successful transform: each stage succeeded and produced
the corresponding model component. -/
theorem transform_ok_inv (root : List (String × JSVal)) (m : StructureModel)
    (h : transformStructure root = .ok m) :
    normalizeSize (rootGet root "size") = .ok m.size
    ∧ buildPalette (structureSectionOf root) = .ok m.palette
    ∧ buildMaterialCounts (structureSectionOf root) m.palette
        = .ok m.materials
    ∧ m.blocks = buildBlocks (structureSectionOf root) m.size
        m.palette.length
    ∧ m.raw = root := by
  simp only [transformStructure, bind, Except.bind, pure, Except.pure] at h
  split at h
  next e hsz => simp at h
  next size hsz =>
    split at h
    next e hp => simp at h
    next palette hp =>
      split at h
      next e hm => simp at h
      next materials hm =>
        injection h with h
        subst h
        exact ⟨hsz, hp, hm, rfl, rfl⟩

/-- The per-layer voxel pass yields nothing when `size.x` is the number 0
(the area bound `size.x * size.z` is 0 or NaN, so no index is below it). -/
theorem layerVoxels_zero_x (sizeY sz : JSNum) (plen : ℕ) (y : JSNum)
    (data : List JSVal) :
    layerVoxels ⟨.val 0, sizeY, sz⟩ plen y data = [] := by
  simp only [layerVoxels]
  rw [List.filterMap_eq_nil_iff]
  intro a _
  cases sz with
  | nan => simp [JSNum.mul, JSNum.min2, JSNum.ltB]
  | posInf => simp [JSNum.mul, JSNum.min2, JSNum.ltB]
  | negInf => simp [JSNum.mul, JSNum.min2, JSNum.ltB]
  | val q =>
    have hnlt : ¬ ((a : ℚ) < min (data.length : ℚ) (0 * q)) := by
      rw [zero_mul]
      intro hlt
      have h0 : (0 : ℚ) ≤ (a : ℚ) := Nat.cast_nonneg a
      have hm : min (data.length : ℚ) 0 ≤ 0 := min_le_right _ _
      linarith
    simp [JSNum.mul, JSNum.min2, JSNum.ltB, hnlt]

/-- Symmetrically, nothing is emitted when `size.z` is the number 0. -/
theorem layerVoxels_zero_z (sx sizeY : JSNum) (plen : ℕ) (y : JSNum)
    (data : List JSVal) :
    layerVoxels ⟨sx, sizeY, .val 0⟩ plen y data = [] := by
  simp only [layerVoxels]
  rw [List.filterMap_eq_nil_iff]
  intro a _
  cases sx with
  | nan => simp [JSNum.mul, JSNum.min2, JSNum.ltB]
  | posInf => simp [JSNum.mul, JSNum.min2, JSNum.ltB]
  | negInf => simp [JSNum.mul, JSNum.min2, JSNum.ltB]
  | val q =>
    have hnlt : ¬ ((a : ℚ) < min (data.length : ℚ) (q * 0)) := by
      rw [mul_zero]
      intro hlt
      have h0 : (0 : ℚ) ≤ (a : ℚ) := Nat.cast_nonneg a
      have hm : min (data.length : ℚ) 0 ≤ 0 := min_le_right _ _
      linarith
    simp [JSNum.mul, JSNum.min2, JSNum.ltB, hnlt]

/-- C6 counterexample: (i) a present but non-coercible size element (an
object) yields `NaN`, not the claimed default 0; (ii) a zero *y* dimension
does not yield zero voxels — `buildBlocks` never consults `size.y`, so a
structure of size `{x:1,y:0,z:1}` with one layer still emits a voxel. -/
theorem size_extraction_claim_fails :
    normalizeSize (.arr [.obj []]) = .ok ⟨.nan, .val 0, .val 0⟩
    ∧ JSNum.nan ≠ JSNum.val 0
    ∧ transformStructure
        [("size", .arr [.num (.val 1), .num (.val 0), .num (.val 1)]),
         ("structure", .obj [
           ("palette", .obj [("default", .obj [("block_palette",
             .arr [.obj [("name", .str "minecraft:stone")]])])]),
           ("block_indices", .arr [.arr [.num (.val 0)]])])]
        = .ok {
            size := ⟨.val 1, .val 0, .val 1⟩
            palette := [⟨0, .str "minecraft:stone", .obj [], .num (.val 0)⟩]
            materials := [("minecraft:stone", 1)]
            blocks := [⟨.val 0, .val 0, .val 0, .val 0⟩]
            raw := [("size", .arr [.num (.val 1), .num (.val 0),
              .num (.val 1)]),
             ("structure", .obj [
               ("palette", .obj [("default", .obj [("block_palette",
                 .arr [.obj [("name", .str "minecraft:stone")]])])]),
               ("block_indices", .arr [.arr [.num (.val 0)]])])] }
    ∧ [(⟨.val 0, .val 0, .val 0, .val 0⟩ : Voxel)] ≠ [] := by
  refine ⟨by with_unfolding_all rfl, by simp, by with_unfolding_all rfl,
    by simp⟩

/-- C6 (amended): size extraction reads the size field as an ordered
sequence, defaulting each of the first three elements to 0 only when the
element is absent or nullish (a present non-coercible element coerces to
NaN); a missing size field yields `{x:0,y:0,z:0}`; a zero `x` or `z`
dimension yields zero voxels while leaving the (possibly non-empty)
palette unchanged — a zero `y` dimension imposes no such constraint. -/
theorem size_extraction_amended :
    normalizeSize .undef = .ok ⟨.val 0, .val 0, .val 0⟩
    ∧ (∀ v : JSVal, v.nullish = true →
        normalizeSize (.arr [v]) = .ok ⟨.val 0, .val 0, .val 0⟩)
    ∧ (∀ (ss : JSVal) (sizeY sz : JSNum) (plen : ℕ),
        buildBlocks ss ⟨.val 0, sizeY, sz⟩ plen = [])
    ∧ (∀ (ss : JSVal) (sx sizeY : JSNum) (plen : ℕ),
        buildBlocks ss ⟨sx, sizeY, .val 0⟩ plen = [])
    ∧ (∀ (root : List (String × JSVal)) (m : StructureModel),
        transformStructure root = .ok m →
        buildPalette (structureSectionOf root) = .ok m.palette) := by
  refine ⟨by with_unfolding_all rfl, ?_, ?_, ?_, ?_⟩
  · intro v hv
    cases v <;> simp_all [JSVal.nullish] <;> with_unfolding_all rfl
  · intro ss sizeY sz plen
    simp only [buildBlocks]
    rw [List.flatMap_eq_nil_iff]
    intro rec _
    cases hrec : rec.2 <;> try rfl
    exact layerVoxels_zero_x sizeY sz plen rec.1 _
  · intro ss sx sizeY plen
    simp only [buildBlocks]
    rw [List.flatMap_eq_nil_iff]
    intro rec _
    cases hrec : rec.2 <;> try rfl
    exact layerVoxels_zero_z sx sizeY plen rec.1 _
  · intro root m h
    exact (transform_ok_inv root m h).2.1

/-- Witness for the amended C6 theorem at concrete inputs. -/
theorem size_extraction_amended_witness :
    normalizeSize (.arr [.jsNull]) = .ok ⟨.val 0, .val 0, .val 0⟩
    ∧ buildBlocks (.obj [("block_indices", .arr [.arr [.num (.val 0)]])])
        ⟨.val 0, .val 1, .val 1⟩ 1 = []
    ∧ buildBlocks (.obj [("block_indices", .arr [.arr [.num (.val 0)]])])
        ⟨.val 1, .val 1, .val 0⟩ 1 = []
    ∧ buildPalette (structureSectionOf []) = .ok ([] : List PaletteEntry) :=
  ⟨size_extraction_amended.2.1 .jsNull rfl,
   size_extraction_amended.2.2.1 _ (.val 1) (.val 1) 1,
   size_extraction_amended.2.2.2.1 _ (.val 1) (.val 1) 1,
   size_extraction_amended.2.2.2.2 []
     { size := ⟨.val 0, .val 0, .val 0⟩, palette := [], materials := [],
       blocks := [], raw := [] } (by with_unfolding_all rfl)⟩

/-- `bump` preserves a key predicate and count positivity. -/
theorem bump_inv (Q : String → Prop) (acc : List (String × ℕ)) (k : String)
    (hacc : ∀ p ∈ acc, Q p.1 ∧ 0 < p.2) (hk : Q k) :
    ∀ p ∈ materialStep.bump acc k, Q p.1 ∧ 0 < p.2 := by
  induction acc with
  | nil =>
    intro p hp
    simp only [materialStep.bump, List.mem_singleton] at hp
    subst hp
    exact ⟨hk, Nat.one_pos⟩
  | cons a rest ih =>
    intro p hp
    obtain ⟨k', c⟩ := a
    simp only [materialStep.bump] at hp
    split at hp
    · rcases List.mem_cons.mp hp with h | h
      · subst h
        exact ⟨(hacc (k', c) (List.mem_cons_self _ _)).1, Nat.succ_pos c⟩
      · exact hacc p (List.mem_cons_of_mem _ h)
    · rcases List.mem_cons.mp hp with h | h
      · subst h
        exact hacc (k', c) (List.mem_cons_self _ _)
      · exact ih (fun q hq => hacc q (List.mem_cons_of_mem _ hq)) p h

/-- A resolved name returned by `namesAt` is an element of the list. -/
theorem namesAt_mem (names : List String) (q : ℚ) (s : String)
    (h : namesAt names q = some s) : s ∈ names := by
  unfold namesAt at h
  split at h
  · exact List.get?_mem h
  · exact absurd h (by simp)

/-- One histogram step preserves the fold invariant: keys satisfy `Q`
(granted to every non-empty, non-air member of `names`) and counts stay
positive. -/
theorem materialStep_inv (names : List String) (Q : String → Prop)
    (hQ : ∀ s ∈ names, s ≠ "" → s ≠ "minecraft:air" → Q s)
    (acc : List (String × ℕ)) (hacc : ∀ p ∈ acc, Q p.1 ∧ 0 < p.2)
    (v : JSVal) :
    ∀ p ∈ materialStep names acc v, Q p.1 ∧ 0 < p.2 := by
  intro p hp
  simp only [materialStep] at hp
  split at hp
  next q hq =>
    split at hp
    · exact hacc p hp
    · split at hp
      · exact hacc p hp
      next s hname =>
        split at hp
        · exact hacc p hp
        next hne =>
          rw [not_or] at hne
          exact bump_inv Q acc s hacc
            (hQ s (namesAt_mem names q s hname) hne.1 hne.2) p hp
  next hq => exact hacc p hp

/-- The value fold of one layer preserves the invariant. -/
theorem foldl_materialStep_inv (names : List String) (Q : String → Prop)
    (hQ : ∀ s ∈ names, s ≠ "" → s ≠ "minecraft:air" → Q s)
    (vs : List JSVal) (acc : List (String × ℕ))
    (hacc : ∀ p ∈ acc, Q p.1 ∧ 0 < p.2) :
    ∀ p ∈ vs.foldl (materialStep names) acc, Q p.1 ∧ 0 < p.2 := by
  induction vs generalizing acc with
  | nil => exact hacc
  | cons v rest ih =>
    exact ih (materialStep names acc v)
      (materialStep_inv names Q hQ acc hacc v)

/-- The layer fold preserves the invariant. -/
theorem layers_fold_inv (names : List String) (Q : String → Prop)
    (hQ : ∀ s ∈ names, s ≠ "" → s ≠ "minecraft:air" → Q s)
    (layers : List JSVal) (acc : List (String × ℕ))
    (hacc : ∀ p ∈ acc, Q p.1 ∧ 0 < p.2) :
    ∀ p ∈ layers.foldl (fun acc layer =>
      match layer with
      | .arr vs => vs.foldl (materialStep names) acc
      | _ => acc) acc, Q p.1 ∧ 0 < p.2 := by
  induction layers generalizing acc with
  | nil => exact hacc
  | cons l rest ih =>
    cases l with
    | arr vs => exact ih _ (foldl_materialStep_inv names Q hQ vs acc hacc)
    | undef => exact ih _ hacc
    | jsNull => exact ih _ hacc
    | num n => exact ih _ hacc
    | bigint i => exact ih _ hacc
    | str s => exact ih _ hacc
    | obj fs => exact ih _ hacc

/-- Every entry of a successful histogram has a non-air, non-empty key
drawn from the lower-cased palette names, with positive count. -/
theorem buildMaterialCounts_inv (ss : JSVal) (palette : List PaletteEntry)
    (counts : List (String × ℕ))
    (h : buildMaterialCounts ss palette = .ok counts) :
    ∀ p ∈ counts, p.1 ≠ "minecraft:air" ∧ 0 < p.2
      ∧ ∃ names, lowerNames palette = .ok names ∧ p.1 ∈ names := by
  unfold buildMaterialCounts at h
  split at h
  · injection h with h
    subst h
    intro p hp
    simp at hp
  · simp only [bind, Except.bind] at h
    split at h
    next e hn => simp at h
    next names hn =>
      split at h
      next layers heq =>
        injection h with h
        subst h
        intro p hp
        have hinv := layers_fold_inv names
          (fun s => s ∈ names ∧ s ≠ "minecraft:air")
          (fun s hs _ hna => ⟨hs, hna⟩) layers []
          (fun q hq => absurd hq (List.not_mem_nil q)) p hp
        exact ⟨hinv.1.2, hinv.2, names, hn, hinv.1.1⟩
      next hne => simp at h

/-- C7: for every DecodedTree on which the transform succeeds, the material
histogram never contains the key `"minecraft:air"`; every key present is
one of the lower-cased palette block names and maps to a positive count;
and an occupancy value whose coercion is non-finite or out of
`[0, paletteLength)` contributes nothing to the histogram. -/
theorem material_histogram_excludes_air :
    (∀ (root : List (String × JSVal)) (m : StructureModel),
      transformStructure root = .ok m →
      ∀ p ∈ m.materials, p.1 ≠ "minecraft:air" ∧ 0 < p.2
        ∧ ∃ names, lowerNames m.palette = .ok names ∧ p.1 ∈ names)
    ∧ (∀ (names : List String) (acc : List (String × ℕ)) (v : JSVal),
        (match toNumber v with
         | .val q => q < 0 ∨ (names.length : ℚ) ≤ q
         | _ => True) →
        materialStep names acc v = acc) := by
  constructor
  · intro root m h
    exact buildMaterialCounts_inv (structureSectionOf root) m.palette
      m.materials (transform_ok_inv root m h).2.2.1
  · intro names acc v hv
    simp only [materialStep]
    split
    · next q hq =>
      rw [hq] at hv
      rw [if_pos hv]
    · rfl

/-- Witness for C7 at a one-entry stone palette. -/
theorem material_histogram_excludes_air_witness :
    ("minecraft:stone" ≠ "minecraft:air" ∧ 0 < 1
      ∧ ∃ names,
          lowerNames [⟨0, .str "minecraft:stone", .obj [], .num (.val 0)⟩]
            = .ok names ∧ "minecraft:stone" ∈ names)
    ∧ materialStep ["minecraft:stone"] [] (.num (.val 7)) = [] := by
  constructor
  · exact material_histogram_excludes_air.1
      [("structure", .obj [
        ("palette", .obj [("default", .obj [("block_palette",
          .arr [.obj [("name", .str "minecraft:stone")]])])]),
        ("block_indices", .arr [.arr [.num (.val 0)]])])]
      { size := ⟨.val 0, .val 0, .val 0⟩
        palette := [⟨0, .str "minecraft:stone", .obj [], .num (.val 0)⟩]
        materials := [("minecraft:stone", 1)]
        blocks := []
        raw := [("structure", .obj [
          ("palette", .obj [("default", .obj [("block_palette",
            .arr [.obj [("name", .str "minecraft:stone")]])])]),
          ("block_indices", .arr [.arr [.num (.val 0)]])])] }
      (by with_unfolding_all rfl) ("minecraft:stone", 1)
      (by with_unfolding_all decide)
  · exact material_histogram_excludes_air.2 ["minecraft:stone"] []
      (.num (.val 7)) (Or.inr (by norm_num))

/-- C8 counterexample: for the size-`{1,1,1}` structure with two sequence
layers, the transform emits a voxel with `y = 1` even though
`size.y = 1` — the `y` coordinate is never checked against `size.y`, so
the claimed bound `0 ≤ y < size.y` fails. -/
theorem voxel_bounds_claim_fails :
    transformStructure
      [("size", .arr [.num (.val 1), .num (.val 1), .num (.val 1)]),
       ("structure", .obj [
         ("palette", .obj [("default", .obj [("block_palette",
           .arr [.obj [("name", .str "minecraft:stone")]])])]),
         ("block_indices",
           .arr [.arr [.num (.val 0)], .arr [.num (.val 0)]])])]
      = .ok {
          size := ⟨.val 1, .val 1, .val 1⟩
          palette := [⟨0, .str "minecraft:stone", .obj [], .num (.val 0)⟩]
          materials := [("minecraft:stone", 2)]
          blocks := [⟨.val 0, .val 0, .val 0, .val 0⟩,
            ⟨.val 0, .val 1, .val 0, .val 0⟩]
          raw := [("size", .arr [.num (.val 1), .num (.val 1),
            .num (.val 1)]),
           ("structure", .obj [
             ("palette", .obj [("default", .obj [("block_palette",
               .arr [.obj [("name", .str "minecraft:stone")]])])]),
             ("block_indices",
               .arr [.arr [.num (.val 0)], .arr [.num (.val 0)]])])] }
    ∧ JSNum.ltB (.val 1) (.val 1) = false := by
  constructor
  · with_unfolding_all rfl
  · with_unfolding_all rfl

/-- C8 (amended): when `size.x` and `size.z` are natural-number-valued,
every emitted voxel has `0 ≤ x < size.x` and `0 ≤ z < size.z` (as finite
numbers), a finite `paletteIndex` with `0 ≤ paletteIndex <
palette.length`, and a `y` coordinate equal to its layer's key — which is
not constrained by `size.y`. -/
theorem voxel_bounds_amended (ss : JSVal) (sx sz : ℕ) (sizeY : JSNum)
    (plen : ℕ) (v : Voxel)
    (hv : v ∈ buildBlocks ss ⟨.val (sx : ℚ), sizeY, .val (sz : ℚ)⟩ plen) :
    (∃ qx : ℚ, v.x = .val qx ∧ 0 ≤ qx ∧ qx < (sx : ℚ))
    ∧ (∃ qz : ℚ, v.z = .val qz ∧ 0 ≤ qz ∧ qz < (sz : ℚ))
    ∧ (∃ qp : ℚ, v.paletteIndex = .val qp ∧ 0 ≤ qp ∧ qp < (plen : ℚ))
    ∧ (∃ rec ∈ normalizeLayers
        ((getPropOrUndef ss "block_indices").coalesce (.arr [])),
        v.y = rec.1) := by
  simp only [buildBlocks] at hv
  rw [List.mem_flatMap] at hv
  obtain ⟨rec, hrec, hvrec⟩ := hv
  cases hdata : rec.2 with
  | arr data =>
    rw [hdata] at hvrec
    have hvrec' : v ∈ layerVoxels ⟨.val (sx : ℚ), sizeY, .val (sz : ℚ)⟩
        plen rec.1 data := hvrec
    rw [layerVoxels_natCast] at hvrec'
    rw [List.mem_filterMap] at hvrec'
    obtain ⟨idx, hidx, hemit⟩ := hvrec'
    rw [List.mem_range] at hidx
    split at hemit
    next q hq =>
      split at hemit
      next hin =>
        injection hemit with hemit
        subst hemit
        have hidx2 : idx < sx * sz := lt_of_lt_of_le hidx (min_le_right _ _)
        have hsx : 0 < sx := by
          rcases Nat.eq_zero_or_pos sx with h0 | h
          · subst h0; simp at hidx2
          · exact h
        have hsz : 0 < sz := by
          rcases Nat.eq_zero_or_pos sz with h0 | h
          · subst h0; simp at hidx2
          · exact h
        refine ⟨⟨((idx % sx : ℕ) : ℚ), rfl, Nat.cast_nonneg _,
            Nat.cast_lt.mpr (Nat.mod_lt _ hsx)⟩,
          ⟨((idx / sx : ℕ) : ℚ), rfl, Nat.cast_nonneg _,
            Nat.cast_lt.mpr ((Nat.div_lt_iff_lt_mul hsx).mpr
              (by rw [mul_comm sx sz] at hidx2; exact hidx2))⟩,
          ⟨q, rfl, hin.1, hin.2⟩,
          ⟨rec, hrec, rfl⟩⟩
      next => exact absurd hemit (by simp)
    next => exact absurd hemit (by simp)
  | undef => rw [hdata] at hvrec; simp at hvrec
  | jsNull => rw [hdata] at hvrec; simp at hvrec
  | num n => rw [hdata] at hvrec; simp at hvrec
  | bigint i => rw [hdata] at hvrec; simp at hvrec
  | str s => rw [hdata] at hvrec; simp at hvrec
  | obj fs => rw [hdata] at hvrec; simp at hvrec

/-- Witness for the amended C8 theorem at a concrete one-voxel structure. -/
theorem voxel_bounds_amended_witness :
    (∃ qx : ℚ, (⟨.val 0, .val 0, .val 0, .val 0⟩ : Voxel).x = .val qx
      ∧ 0 ≤ qx ∧ qx < ((1 : ℕ) : ℚ))
    ∧ (∃ qz : ℚ, (⟨.val 0, .val 0, .val 0, .val 0⟩ : Voxel).z = .val qz
      ∧ 0 ≤ qz ∧ qz < ((1 : ℕ) : ℚ))
    ∧ (∃ qp : ℚ, (⟨.val 0, .val 0, .val 0, .val 0⟩ : Voxel).paletteIndex
      = .val qp ∧ 0 ≤ qp ∧ qp < ((1 : ℕ) : ℚ))
    ∧ (∃ rec ∈ normalizeLayers
        ((getPropOrUndef (.obj [("block_indices", .arr [.arr
          [.num (.val 0)]])]) "block_indices").coalesce (.arr [])),
        (⟨.val 0, .val 0, .val 0, .val 0⟩ : Voxel).y = rec.1) :=
  voxel_bounds_amended (.obj [("block_indices", .arr [.arr [.num (.val 0)]])])
    1 1 (.val 1) 1 ⟨.val 0, .val 0, .val 0, .val 0⟩
    (by with_unfolding_all decide)

/-- Finite-number test on a layer key. -/
def finiteNum (n : JSNum) : Bool :=
  match n with
  | .val _ => true
  | _ => false

/-- The rational carried by a finite layer key (0 for NaN/±∞, which the
ordering statements rule out by hypothesis). -/
def numQ (n : JSNum) : ℚ :=
  match n with
  | .val q => q
  | _ => 0

/-- The numeric key of a normalized layer record. -/
def keyQ (rec : LayerRec) : ℚ := numQ rec.1

/-- For records with finite keys the sort's "not greater" relation is the
numeric order on the keys. -/
theorem layerLe_iff_keyQ (a b : LayerRec) (ha : finiteNum a.1 = true)
    (hb : finiteNum b.1 = true) : layerLe a b = true ↔ keyQ a ≤ keyQ b := by
  obtain ⟨ka, da⟩ := a
  obtain ⟨kb, db⟩ := b
  cases ka <;> simp [finiteNum] at ha <;> cases kb <;>
    simp [finiteNum] at hb <;>
    simp [layerLe, JSNum.sub, keyQ, numQ, sub_nonpos]

/-- `sortInsert` produces a permutation of consing. -/
theorem sortInsert_perm (a : LayerRec) (l : List LayerRec) :
    (sortInsert a l).Perm (a :: l) := by
  induction l with
  | nil => exact List.Perm.refl _
  | cons b t ih =>
    unfold sortInsert
    split
    · exact List.Perm.refl _
    · exact (ih.cons b).trans (List.Perm.swap a b t)

/-- The layer sort permutes its input. -/
theorem jsSortLayers_perm (l : List LayerRec) : (jsSortLayers l).Perm l := by
  induction l with
  | nil => exact List.Perm.refl _
  | cons a t ih => exact (sortInsert_perm a (jsSortLayers t)).trans (ih.cons a)

/-- Inserting into a key-sorted run of finite-key records keeps it
key-sorted. -/
theorem sortInsert_sorted (a : LayerRec) (l : List LayerRec)
    (hfa : finiteNum a.1 = true) (hfl : ∀ x ∈ l, finiteNum x.1 = true)
    (hl : l.Pairwise (fun x y => keyQ x ≤ keyQ y)) :
    (sortInsert a l).Pairwise (fun x y => keyQ x ≤ keyQ y) := by
  induction l with
  | nil => simp [sortInsert]
  | cons b t ih =>
    have hfb : finiteNum b.1 = true := hfl b (List.mem_cons_self _ _)
    rw [List.pairwise_cons] at hl
    unfold sortInsert
    split
    next hle =>
      have hab : keyQ a ≤ keyQ b := (layerLe_iff_keyQ a b hfa hfb).mp hle
      rw [List.pairwise_cons]
      refine ⟨?_, List.pairwise_cons.mpr hl⟩
      intro x hx
      rcases List.mem_cons.mp hx with h | h
      · subst h; exact hab
      · exact hab.trans (hl.1 x h)
    next hle =>
      have hba : keyQ b ≤ keyQ a := by
        rcases le_total (keyQ a) (keyQ b) with h | h
        · exact absurd ((layerLe_iff_keyQ a b hfa hfb).mpr h) hle
        · exact h
      rw [List.pairwise_cons]
      constructor
      · intro x hx
        rcases List.mem_cons.mp ((sortInsert_perm a t).mem_iff.mp hx)
          with h | h
        · subst h; exact hba
        · exact hl.1 x h
      · exact ih (fun x hx => hfl x (List.mem_cons_of_mem _ hx)) hl.2

/-- The layer sort of finite-key records is key-sorted. -/
theorem jsSortLayers_sorted (l : List LayerRec)
    (hf : ∀ x ∈ l, finiteNum x.1 = true) :
    (jsSortLayers l).Pairwise (fun x y => keyQ x ≤ keyQ y) := by
  induction l with
  | nil => simp [jsSortLayers]
  | cons a t ih =>
    exact sortInsert_sorted a (jsSortLayers t)
      (hf a (List.mem_cons_self _ _))
      (fun x hx => hf x (List.mem_cons_of_mem _
        ((jsSortLayers_perm t).mem_iff.mp hx)))
      (ih (fun x hx => hf x (List.mem_cons_of_mem _ hx)))

/-- Two strictly-key-sorted permutations of each other are equal. -/
theorem sorted_perm_eq (l₁ : List LayerRec) :
    ∀ l₂ : List LayerRec, l₁.Perm l₂ →
    l₁.Pairwise (fun x y => keyQ x < keyQ y) →
    l₂.Pairwise (fun x y => keyQ x < keyQ y) → l₁ = l₂ := by
  induction l₁ with
  | nil =>
    intro l₂ hp _ _
    exact hp.nil_eq
  | cons a t ih =>
    intro l₂ hp h₁ h₂
    cases l₂ with
    | nil => exact absurd hp.symm (by simp)
    | cons b t₂ =>
      rw [List.pairwise_cons] at h₁ h₂
      have hab : a = b := by
        rcases List.mem_cons.mp (hp.mem_iff.mp (List.mem_cons_self a t))
          with h | h
        · exact h
        · rcases List.mem_cons.mp (hp.symm.mem_iff.mp
            (List.mem_cons_self b t₂)) with h' | h'
          · exact h'.symm
          · exact absurd (h₂.1 a h) (not_lt.mpr (le_of_lt (h₁.1 b h')))
      subst hab
      have ht : t.Perm t₂ := hp.cons_inv
      exact congrArg (a :: ·) (ih t₂ ht h₁.2 h₂.2)

/-- A key-sorted list with pairwise-distinct keys is strictly key-sorted. -/
theorem pairwise_lt_of_le_nodup (l : List LayerRec)
    (hle : l.Pairwise (fun x y => keyQ x ≤ keyQ y))
    (hnd : (l.map keyQ).Nodup) :
    l.Pairwise (fun x y => keyQ x < keyQ y) := by
  have hne : l.Pairwise (fun x y => keyQ x ≠ keyQ y) :=
    List.pairwise_map.mp hnd
  exact (hle.and hne).imp (fun h => lt_of_le_of_ne h.1 h.2)

/-- C5: for the sequence form of `block_indices` each normalized layer's
key equals its position; for the mapping form with integer-parsing keys
the normalized layers are the key-parsed records sorted ascending by
numeric key — in particular, with distinct numeric keys, any two
insertion orders of the same key/value pairs normalize identically. -/
theorem layer_normalization_order :
    (∀ (ls : List JSVal) (i : ℕ), i < ls.length →
      (normalizeLayers (.arr ls))[i]?
        = some ((.val (i : ℚ) : JSNum), ls.getD i .undef))
    ∧ (∀ kvs : List (String × JSVal),
        (∀ p ∈ kvs, finiteNum (parseIntJS p.1) = true) →
        ((normalizeLayers (.obj kvs)).Pairwise
            (fun a b => keyQ a ≤ keyQ b)
          ∧ (normalizeLayers (.obj kvs)).Perm
              (kvs.map (fun p => (parseIntJS p.1, p.2)))))
    ∧ (∀ kvs kvs' : List (String × JSVal),
        kvs.Perm kvs' →
        (∀ p ∈ kvs, finiteNum (parseIntJS p.1) = true) →
        (kvs.map (fun p => numQ (parseIntJS p.1))).Nodup →
        normalizeLayers (.obj kvs) = normalizeLayers (.obj kvs')) := by
  have hmapkey : ∀ kvs : List (String × JSVal),
      (kvs.map (fun p => (parseIntJS p.1, p.2))).map keyQ
        = kvs.map (fun p => numQ (parseIntJS p.1)) := by
    intro kvs
    rw [List.map_map]
    rfl
  refine ⟨?_, ?_, ?_⟩
  · intro ls i hi
    simp [normalizeLayers, List.getElem?_map, List.getElem?_enum,
      List.getElem?_eq_getElem hi, List.getD, List.get?_eq_getElem?]
  · intro kvs hf
    constructor
    · exact jsSortLayers_sorted _ (by
        intro x hx
        rw [List.mem_map] at hx
        obtain ⟨p, hp, hpx⟩ := hx
        subst hpx
        exact hf p hp)
    · exact jsSortLayers_perm _
  · intro kvs kvs' hperm hf hnd
    have hf' : ∀ p ∈ kvs', finiteNum (parseIntJS p.1) = true :=
      fun p hp => hf p (hperm.symm.subset hp)
    have hfm : ∀ x ∈ kvs.map (fun p => (parseIntJS p.1, p.2)),
        finiteNum x.1 = true := by
      intro x hx
      rw [List.mem_map] at hx
      obtain ⟨p, hp, hpx⟩ := hx
      subst hpx
      exact hf p hp
    have hfm' : ∀ x ∈ kvs'.map (fun p => (parseIntJS p.1, p.2)),
        finiteNum x.1 = true := by
      intro x hx
      rw [List.mem_map] at hx
      obtain ⟨p, hp, hpx⟩ := hx
      subst hpx
      exact hf' p hp
    have hnd' : ((kvs.map (fun p => (parseIntJS p.1, p.2))).map keyQ).Nodup := by
      rw [hmapkey]; exact hnd
    have hndR : ((kvs'.map (fun p => (parseIntJS p.1, p.2))).map keyQ).Nodup := by
      rw [hmapkey]
      have : (kvs.map (fun p => numQ (parseIntJS p.1))).Perm
          (kvs'.map (fun p => numQ (parseIntJS p.1))) := hperm.map _
      exact this.nodup_iff.mp hnd
    apply sorted_perm_eq
    · exact (jsSortLayers_perm _).trans
        ((hperm.map _).trans (jsSortLayers_perm _).symm)
    · exact pairwise_lt_of_le_nodup _ (jsSortLayers_sorted _ hfm)
        (((jsSortLayers_perm _).map keyQ).nodup_iff.mpr hnd')
    · exact pairwise_lt_of_le_nodup _ (jsSortLayers_sorted _ hfm')
        (((jsSortLayers_perm _).map keyQ).nodup_iff.mpr hndR)

/-- Witness for C5 at the spec's example `{ "1": [...], "0": [...] }`. -/
theorem layer_normalization_order_witness :
    ((normalizeLayers (.obj [("1", .arr [.num (.val 1)]),
        ("0", .arr [.num (.val 0)])])).Pairwise
      (fun a b => keyQ a ≤ keyQ b)
    ∧ (normalizeLayers (.obj [("1", .arr [.num (.val 1)]),
        ("0", .arr [.num (.val 0)])])).Perm
        ([("1", .arr [.num (.val 1)]), ("0", .arr [.num (.val 0)])].map
          (fun p => (parseIntJS p.1, p.2))))
    ∧ normalizeLayers (.obj [("1", .arr [.num (.val 1)]),
        ("0", .arr [.num (.val 0)])])
      = normalizeLayers (.obj [("0", .arr [.num (.val 0)]),
        ("1", .arr [.num (.val 1)])]) :=
  ⟨layer_normalization_order.2.1 _ (by
      intro p hp
      rcases List.mem_cons.mp hp with h | h
      · subst h; with_unfolding_all decide
      · rcases List.mem_cons.mp h with h' | h'
        · subst h'; with_unfolding_all decide
        · exact absurd h' (List.not_mem_nil p)),
   layer_normalization_order.2.2 _ _
    (List.Perm.swap _ _ _)
    (by
      intro p hp
      rcases List.mem_cons.mp hp with h | h
      · subst h; with_unfolding_all decide
      · rcases List.mem_cons.mp h with h' | h'
        · subst h'; with_unfolding_all decide
        · exact absurd h' (List.not_mem_nil p))
    (by with_unfolding_all decide)⟩

end MCStructure
